import Mathlib

/-!
Shallow embedding of the Persons CRUD service (src/backend/main.py).

The service manages a single entity `Person` stored in a relational table
`persons` with columns `id` (integer primary key), `name`, `age`, `address`,
`work`, all declared `nullable=False`.  Five HTTP endpoints are provided:
GET one, GET list, POST (create), PATCH (partial update), DELETE.

Values flowing through PATCH bodies are arbitrary JSON values; we model the
fragment relevant to this service: null, strings, and integers.  Python
truthiness on these values: `None`, `""` and `0` are falsy.

State: the table is a list of rows plus the auto-increment counter for the
next id (the production store assigns fresh ids from a sequence).
-/

/-- JSON-ish values stored in columns and supplied in PATCH bodies, plus
`vobj`: an opaque truthy Python object (the declarative base's MetaData and
registry objects) reachable only through getattr on non-column attributes —
it never occurs in a JSON body or a stored row. -/
inductive Value where
  | vnull
  | vstr (s : String)
  | vint (n : Int)
  | vobj
deriving DecidableEq

/-- Python truthiness on the modelled values: `None`, `""`, `0` are falsy;
the non-column objects (MetaData, registry) are truthy. -/
def Value.truthy : Value → Bool
  | .vnull => false
  | .vstr s => s ≠ ""
  | .vint n => n ≠ 0
  | .vobj => true

/-- Whether a value is an integer (the declared type of the `id` and `age`
columns). -/
def Value.isInt : Value → Bool
  | .vint _ => true
  | _ => false

/-- Whether a value is a string (the declared type of the `name`, `address`,
`work` columns). -/
def Value.isStr : Value → Bool
  | .vstr _ => true
  | _ => false

/-- A row of the `persons` table (class PersonDB, main.py lines 38-44).
All five attributes hold dynamic values: SQLAlchemy does not type-check
assignments, failures only surface at commit time. -/
structure PersonRec where
  id : Value
  name : Value
  age : Value
  address : Value
  work : Value
deriving DecidableEq

/-- The five mapped column names of a PersonDB record. -/
def validFields : List String := ["id", "name", "age", "address", "work"]

/-- The attribute names of a PersonDB instance that do not start with an
underscore: the five mapped columns plus the declarative base's `metadata`
and `registry`.  Every further attribute of the instance (Python object
internals and SQLAlchemy machinery such as `__tablename__`, `__doc__`,
`__class__`, `_sa_instance_state`) starts with an underscore. -/
def plainAttrs : List String :=
  ["id", "name", "age", "address", "work", "metadata", "registry"]

/-- Whether a key starts with an underscore (first character of the string). -/
def startsUnderscore (f : String) : Bool :=
  f.data.head? == some '_'

/-- Python `getattr(db_person, field)`.  A PersonDB instance's attributes are
the five mapped columns; the declarative base's truthy `metadata` and
`registry` objects; and underscore-prefixed Python/SQLAlchemy internals, of
which `__tablename__` (the truthy string "persons", main.py line 39) is
modelled because the update loop treats it uniformly — the remaining
internals (`__doc__` is None, assigning `__class__` raises TypeError,
clobbering `_sa_instance_state` breaks the session) behave key-specifically
and are outside the modelled fragment: no theorem below names them.  For
every key that is not an attribute, getattr raises AttributeError (`none`). -/
def getattr (p : PersonRec) (f : String) : Option Value :=
  if f = "id" then some p.id
  else if f = "name" then some p.name
  else if f = "age" then some p.age
  else if f = "address" then some p.address
  else if f = "work" then some p.work
  else if f = "metadata" then some .vobj
  else if f = "registry" then some .vobj
  else if f = "__tablename__" then some (.vstr "persons")
  else none

/-- Python `setattr(db_person, field, value)` (in the update loop it only
runs after `getattr` succeeded).  Writing a mapped column changes that
column; writing a non-column attribute such as `metadata` only creates a
shadowing instance attribute, leaving every column — and hence the row the
commit writes and the response serializes — unchanged.  (Keys of a Python
dict are distinct, so the shadow write is never read back within one
request.) -/
def setattr (p : PersonRec) (f : String) (v : Value) : PersonRec :=
  if f = "id" then { p with id := v }
  else if f = "name" then { p with name := v }
  else if f = "age" then { p with age := v }
  else if f = "address" then { p with address := v }
  else if f = "work" then { p with work := v }
  else p

/-- The durable store: the rows of the `persons` table in insertion order,
plus the auto-increment counter for the next assigned id. -/
structure Store where
  persons : List PersonRec
  nextId : Int
deriving DecidableEq

/-- A fresh service: empty table, ids assigned from 1. -/
def emptyStore : Store := ⟨[], 1⟩

/-- A validated POST body (pydantic model PersonCreate, main.py lines 52-61):
all four fields present and typed. -/
structure CreateBody where
  name : String
  age : Int
  address : String
  work : String
deriving DecidableEq

/-- The observable HTTP response of one request. -/
inductive Resp where
  /-- HTTP 200 with the JSON of one record -/
  | ok (p : PersonRec)
  /-- HTTP 200 with a JSON array of records -/
  | okList (ps : List PersonRec)
  /-- HTTP 201, empty body, with a Location header -/
  | created (location : String)
  /-- HTTP 404 with body mapping "detail" to the given detail (raised HTTPException) -/
  | notFound (detail : String)
  /-- HTTP 400 with body mapping "message" to msg (error_response, main.py lines 72-75) -/
  | badRequest (msg : String)
  /-- HTTP 422 with a structured list of (field path, error kind) diagnostics -/
  | unprocessable (errs : List (String × String))
  /-- an unhandled exception of the given kind, surfaced by the transport
  as a generic 500 -/
  | serverError (kind : String)
  /-- HTTP 204, empty body -/
  | noContent
deriving DecidableEq

/-- The HTTP status code of a response. -/
def Resp.status : Resp → Nat
  | .ok _ => 200
  | .okList _ => 200
  | .created _ => 201
  | .notFound _ => 404
  | .badRequest _ => 400
  | .unprocessable _ => 422
  | .serverError _ => 500
  | .noContent => 204

/-- Lookup part of get_person_by_id (main.py lines 91-95):
`db.query(PersonDB).filter(PersonDB.id == id).first()`. -/
def get_person_by_id (pid : Int) (db : List PersonRec) : Option PersonRec :=
  db.find? (fun p => p.id == Value.vint pid)

/-- GET /persons/{person_id} (main.py lines 98-100): the found record, or the
404 raised by get_person_by_id. -/
def read_person (pid : Int) (s : Store) : Resp :=
  match get_person_by_id pid s.persons with
  | none => .notFound "Not found"
  | some p => .ok p

/-- GET /persons (main.py lines 103-105): every stored row, in store order. -/
def read_persons (s : Store) : Resp :=
  .okList s.persons

/-- POST /persons (main.py lines 108-119) on an already-validated body:
insert a row with the store-assigned id, return 201 with empty body and
Location header `/persons/\x7bid\x7d`. -/
def create_person (b : CreateBody) (s : Store) : Resp × Store :=
  let p : PersonRec :=
    ⟨.vint s.nextId, .vstr b.name, .vint b.age, .vstr b.address, .vstr b.work⟩
  (.created ("/persons/" ++ toString s.nextId),
   ⟨s.persons ++ [p], s.nextId + 1⟩)

/-- Outcome of the field loop of update_person (main.py lines 126-129). -/
inductive LoopResult where
  /-- Python getattr failed: unhandled AttributeError -/
  | attrError
  /-- a visited field's value was falsy: error_response("Invalid data", 400) -/
  | invalid
  /-- the whole body was applied to the in-memory record -/
  | done (p : PersonRec)
deriving DecidableEq

/-- The loop `for field, value in person.items(): if not getattr(...): return
error_response(...); setattr(...)` (main.py lines 126-129). -/
def applyFields (p : PersonRec) : List (String × Value) → LoopResult
  | [] => .done p
  | (f, v) :: rest =>
    match getattr p f with
    | none => .attrError
    | some cur => if cur.truthy then applyFields (setattr p f v) rest else .invalid

/-- Applying every (field, value) pair of a body in order. -/
def applyAll (p : PersonRec) (body : List (String × Value)) : PersonRec :=
  body.foldl (fun q kv => setattr q kv.1 kv.2) p

/-- Whether `db.commit()` and the subsequent `response_model` serialization
succeed for the updated row `p` replacing the row whose id was `oldId`:
every column must hold a value of its declared type (main.py lines 40-44 —
Integer primary key `id`, unique among the rows; String `name`, `address`,
`work`; Integer `age`; all `nullable=False`, which exact typing subsumes).
On this exact-typed core the commit succeeds on both backends and the
response serializes.  Outside it the endpoint never returns 200-with-the-
typed-record: a null violates NOT NULL (IntegrityError on both backends)
and a wrongly typed value errors at commit on Postgres or fails the
`response_model=PersonResponse` serialization on SQLite — except for
cross-type coercions the engines perform (e.g. a digit string into an
Integer column), which are outside the modelled fragment: no theorem below
asserts the failure branch for them. -/
def commitOk (s : Store) (oldId : Value) (p : PersonRec) : Bool :=
  p.id.isInt && p.name.isStr && p.age.isInt && p.address.isStr && p.work.isStr
    && s.persons.all (fun q => q.id == oldId || !(q.id == p.id))

/-- The part of PATCH after the row was found (main.py lines 126-133): walk
the body mutating the in-memory row, rejecting with 400 as soon as a visited
field's current value is falsy, then commit.  Nothing reaches the store
unless commit runs and succeeds.  The failure kind "IntegrityError" names
the NOT NULL violation both backends raise on a null column, the one failing
commit the theorems below exercise. -/
def updateFound (s : Store) (p : PersonRec) (body : List (String × Value)) :
    Resp × Store :=
  match applyFields p body with
  | .attrError => (.serverError "AttributeError", s)
  | .invalid => (.badRequest "Invalid data", s)
  | .done p' =>
    if commitOk s p.id p' then
      (.ok p', ⟨s.persons.map (fun q => if q.id == p.id then p' else q), s.nextId⟩)
    else
      (.serverError "IntegrityError", s)

/-- PATCH /persons/{person_id} (main.py lines 122-133): find the row (404 if
absent), then apply the body and commit. -/
def update_person (pid : Int) (body : List (String × Value)) (s : Store) :
    Resp × Store :=
  match get_person_by_id pid s.persons with
  | none => (.notFound "Not found", s)
  | some p => updateFound s p body

/-- DELETE /persons/{person_id} (main.py lines 136-141): find the row (404 if
absent), delete it, 204 with empty body. -/
def delete_person (pid : Int) (s : Store) : Resp × Store :=
  match get_person_by_id pid s.persons with
  | none => (.notFound "Not found", s)
  | some p => (.noContent, ⟨s.persons.filter (fun q => !(q.id == p.id)), s.nextId⟩)

/-- The raw JSON object of a POST body: field-name/value pairs. -/
def lookupField (body : List (String × Value)) (f : String) : Option Value :=
  (body.find? (fun kv => kv.1 == f)).map Prod.snd

/-- Modelled from the spec: the request-parsing layer for POST (FastAPI +
pydantic, outside this repository's source).  Per spec section 4.2 the four
fields are required and type-checked — text fields must be string-typed,
`age` must be integer-typed; on success the typed body is produced. -/
def validate_create (body : List (String × Value)) : Option CreateBody :=
  match lookupField body "name", lookupField body "age",
        lookupField body "address", lookupField body "work" with
  | some (.vstr n), some (.vint a), some (.vstr ad), some (.vstr w) =>
      some ⟨n, a, ad, w⟩
  | _, _, _, _ => none

/-- Modelled from the spec: the structured 422 diagnostics, "a machine-readable
list of (field_path, error_kind) pairs" (spec sections 4.2 and 7). -/
def fieldErrorsStr (body : List (String × Value)) (f : String) :
    List (String × String) :=
  match lookupField body f with
  | none => [(f, "missing")]
  | some (.vstr _) => []
  | some _ => [(f, "string_type")]

/-- Modelled from the spec: diagnostics for the integer-typed field. -/
def fieldErrorsInt (body : List (String × Value)) (f : String) :
    List (String × String) :=
  match lookupField body f with
  | none => [(f, "missing")]
  | some (.vint _) => []
  | some _ => [(f, "int_type")]

/-- Modelled from the spec: all diagnostics of a POST body. -/
def createErrors (body : List (String × Value)) : List (String × String) :=
  fieldErrorsStr body "name" ++ fieldErrorsInt body "age"
    ++ fieldErrorsStr body "address" ++ fieldErrorsStr body "work"

/-- The full POST pipeline: request parsing (modelled from the spec, running
before any store access) followed by the create_person handler. -/
def post_persons (body : List (String × Value)) (s : Store) : Resp × Store :=
  match validate_create body with
  | none => (.unprocessable (createErrors body), s)
  | some b => create_person b s

/-- Whether one body entry names a field whose value on `p` is falsy. -/
def falsyAt (p : PersonRec) (kv : String × Value) : Bool :=
  match getattr p kv.1 with
  | some cur => !cur.truthy
  | none => false

/-- A falsy current value among the fields named by the body, measured on a
fixed record. -/
def hasFalsyField (p : PersonRec) (body : List (String × Value)) : Bool :=
  body.any (falsyAt p)

/-- Creating from a list of bodies in order (used for the list-endpoint claim). -/
def createMany (bodies : List CreateBody) (s : Store) : Store :=
  bodies.foldl (fun st b => (create_person b st).2) s

/-- The record a successful create inserts for a body, given the assigned id. -/
def mkRecord (n : Int) (b : CreateBody) : PersonRec :=
  ⟨.vint n, .vstr b.name, .vint b.age, .vstr b.address, .vstr b.work⟩

/-- The records inserted by successive creates starting at id `n`. -/
def mkRecords : Int → List CreateBody → List PersonRec
  | _, [] => []
  | n, b :: bs => mkRecord n b :: mkRecords (n + 1) bs

/-- A POST body value failing the string-typed requirement (absent or not a
string). -/
def notStrTyped : Option Value → Bool
  | some (.vstr _) => false
  | _ => true

/-- A POST body value failing the integer-typed requirement (absent or not an
integer). -/
def notIntTyped : Option Value → Bool
  | some (.vint _) => false
  | _ => true

/-- All four record fields hold truthy values. -/
def fieldsTruthy (p : PersonRec) : Bool :=
  p.name.truthy && p.age.truthy && p.address.truthy && p.work.truthy

/-- Every stored record has all four fields truthy (the spec's section 3
invariant). -/
def allTruthy (s : Store) : Bool :=
  s.persons.all fieldsTruthy

/-- The record created by the repository's own test data (test.py lines 35-40). -/
def johnRec : PersonRec :=
  ⟨.vint 1, .vstr "John Doe", .vint 30, .vstr "123", .vstr "123"⟩

/-- The store after POSTing the test data to a fresh service. -/
def sampleStore : Store := ⟨[johnRec], 2⟩

/-- A reachable record whose name is the empty string (created by a POST with
an empty but correctly typed name). -/
def emptyNameRec : PersonRec :=
  ⟨.vint 1, .vstr "", .vint 30, .vstr "123", .vstr "123"⟩

/-- A reachable store holding a record with a falsy field. -/
def emptyNameStore : Store := ⟨[emptyNameRec], 2⟩

example : (update_person 1 [("age", Value.vint 25)]
    ⟨[⟨.vint 1, .vstr "John", .vint 30, .vstr "Main", .vstr "Acme"⟩], 2⟩).1
    = .ok ⟨.vint 1, .vstr "John", .vint 25, .vstr "Main", .vstr "Acme"⟩ := by
  decide

example : (update_person 1 [("name", Value.vnull)]
    ⟨[⟨.vint 1, .vstr "John", .vint 30, .vstr "Main", .vstr "Acme"⟩], 2⟩).1
    = .serverError "IntegrityError" := by decide

example : (update_person 1 [("id", Value.vint 2)]
    ⟨[⟨.vint 1, .vstr "John", .vint 30, .vstr "Main", .vstr "Acme"⟩], 2⟩).2.persons
    = [⟨.vint 2, .vstr "John", .vint 30, .vstr "Main", .vstr "Acme"⟩] := by decide

example : (post_persons [("name", .vstr "x"), ("age", .vint 0),
    ("address", .vstr "a"), ("work", .vstr "w")] emptyStore).2.persons
    = [⟨.vint 1, .vstr "x", .vint 0, .vstr "a", .vstr "w"⟩] := by decide

example : (post_persons [("name", .vstr "x")] emptyStore).1
    = .unprocessable [("age", "missing"), ("address", "missing"), ("work", "missing")] := by
  decide

/-! ## Helper lemmas about the update loop -/

set_option maxHeartbeats 1600000 in
lemma getattr_setattr_ne (p : PersonRec) (f : String) (v : Value) (g : String)
    (h : g ≠ f) : getattr (setattr p f v) g = getattr p g := by
  unfold setattr
  split_ifs with h1 h2 h3 h4 h5
  · subst h1; unfold getattr; split_ifs <;> simp_all
  · subst h2; unfold getattr; split_ifs <;> simp_all
  · subst h3; unfold getattr; split_ifs <;> simp_all
  · subst h4; unfold getattr; split_ifs <;> simp_all
  · subst h5; unfold getattr; split_ifs <;> simp_all
  · rfl

lemma getattr_eq_none (p : PersonRec) (f : String) (h1 : f ∉ plainAttrs)
    (h2 : startsUnderscore f = false) : getattr p f = none := by
  simp only [plainAttrs, List.mem_cons, List.not_mem_nil, or_false, not_or] at h1
  have h3 : f ≠ "__tablename__" := by
    intro he
    rw [he] at h2
    exact absurd h2 (by decide)
  unfold getattr
  split_ifs <;> simp_all

lemma getattr_isSome (p : PersonRec) (f : String) (h : f ∈ validFields) :
    ∃ cur, getattr p f = some cur := by
  fin_cases h <;> simp [getattr]

lemma setattr_id_ne (p : PersonRec) (f : String) (v : Value) (h : f ≠ "id") :
    (setattr p f v).id = p.id := by
  unfold setattr
  split_ifs <;> simp_all

lemma falsyAt_setattr (p : PersonRec) (f : String) (v : Value)
    (kv : String × Value) (h : kv.1 ≠ f) :
    falsyAt (setattr p f v) kv = falsyAt p kv := by
  unfold falsyAt
  rw [getattr_setattr_ne p f v kv.1 h]

lemma hasFalsyField_setattr (p : PersonRec) (f : String) (v : Value)
    (rest : List (String × Value)) (h : f ∉ rest.map Prod.fst) :
    hasFalsyField (setattr p f v) rest = hasFalsyField p rest := by
  unfold hasFalsyField
  induction rest with
  | nil => rfl
  | cons kv rest ih =>
    simp only [List.map_cons, List.mem_cons, not_or] at h
    simp only [List.any_cons]
    rw [falsyAt_setattr p f v kv (fun he => h.1 he.symm), ih h.2]

lemma applyFields_cons_none (p : PersonRec) (f : String) (v : Value)
    (rest : List (String × Value)) (h : getattr p f = none) :
    applyFields p ((f, v) :: rest) = .attrError := by
  rw [applyFields, h]

lemma applyFields_cons_some (p : PersonRec) (f : String) (v : Value)
    (rest : List (String × Value)) (cur : Value) (h : getattr p f = some cur) :
    applyFields p ((f, v) :: rest)
      = if cur.truthy then applyFields (setattr p f v) rest else .invalid := by
  rw [applyFields, h]

lemma applyAll_nil (p : PersonRec) : applyAll p [] = p := rfl

lemma applyAll_cons (p : PersonRec) (f : String) (v : Value)
    (rest : List (String × Value)) :
    applyAll p ((f, v) :: rest) = applyAll (setattr p f v) rest := rfl

lemma applyFields_append (pre : List (String × Value)) :
    ∀ (p : PersonRec) (rest : List (String × Value)),
    (∀ kv ∈ pre, kv.1 ∈ validFields) → (pre.map Prod.fst).Nodup →
    hasFalsyField p pre = false →
    applyFields p (pre ++ rest) = applyFields (applyAll p pre) rest := by
  induction pre with
  | nil => intro p rest _ _ _; rfl
  | cons kv pre ih =>
    intro p rest hvalid hnd hfal
    obtain ⟨f, v⟩ := kv
    obtain ⟨cur, hcur⟩ := getattr_isSome p f (hvalid (f, v) (List.mem_cons_self _ _))
    simp only [hasFalsyField, List.any_cons, Bool.or_eq_false_iff] at hfal
    have htr : cur.truthy = true := by
      have h1 := hfal.1
      simp only [falsyAt, hcur, Bool.not_eq_false'] at h1
      exact h1
    simp only [List.map_cons, List.nodup_cons] at hnd
    rw [List.cons_append, applyFields, hcur]
    simp only [htr, if_true]
    rw [applyAll_cons]
    refine ih (setattr p f v) rest (fun kv hkv => hvalid kv (List.mem_cons_of_mem _ hkv))
      hnd.2 ?_
    rw [hasFalsyField_setattr p f v pre hnd.1]
    exact hfal.2

lemma applyFields_done_of_pass (p : PersonRec) (body : List (String × Value))
    (hvalid : ∀ kv ∈ body, kv.1 ∈ validFields) (hnd : (body.map Prod.fst).Nodup)
    (hfal : hasFalsyField p body = false) :
    applyFields p body = .done (applyAll p body) := by
  have h := applyFields_append body p [] hvalid hnd hfal
  simpa [applyFields] using h

lemma applyFields_invalid_of_hasFalsy (body : List (String × Value)) :
    ∀ (p : PersonRec), (∀ kv ∈ body, kv.1 ∈ validFields) →
    hasFalsyField p body = true → applyFields p body = .invalid := by
  induction body with
  | nil => intro p _ hfal; simp [hasFalsyField] at hfal
  | cons kv rest ih =>
    intro p hvalid hfal
    obtain ⟨f, v⟩ := kv
    obtain ⟨cur, hcur⟩ := getattr_isSome p f (hvalid (f, v) (List.mem_cons_self _ _))
    rw [applyFields, hcur]
    by_cases htr : cur.truthy = true
    · simp only [htr, if_true]
      refine ih (setattr p f v) (fun kv hkv => hvalid kv (List.mem_cons_of_mem _ hkv)) ?_
      simp only [hasFalsyField, List.any_cons, Bool.or_eq_true_iff] at hfal
      rcases hfal with hhead | htail
      · exfalso
        simp only [falsyAt, hcur, Bool.not_eq_true', htr] at hhead
        cases hhead
      · simp only [hasFalsyField, List.any_eq_true] at htail ⊢
        obtain ⟨x, hx, hfx⟩ := htail
        refine ⟨x, hx, ?_⟩
        have hxne : x.1 ≠ f := by
          intro he
          simp only [falsyAt, he, hcur, Bool.not_eq_true', htr] at hfx
          cases hfx
        rw [falsyAt_setattr p f v x hxne]
        exact hfx
    · simp [htr]

lemma applyFields_done_eq (body : List (String × Value)) :
    ∀ (p p' : PersonRec), applyFields p body = .done p' → p' = applyAll p body := by
  induction body with
  | nil => intro p p' h; cases h; rfl
  | cons kv rest ih =>
    intro p p' h
    obtain ⟨f, v⟩ := kv
    cases hcur : getattr p f with
    | none => rw [applyFields_cons_none p f v rest hcur] at h; cases h
    | some cur =>
      rw [applyFields_cons_some p f v rest cur hcur] at h
      by_cases htr : cur.truthy = true
      · rw [if_pos htr] at h
        rw [applyAll_cons]
        exact ih (setattr p f v) p' h
      · rw [if_neg htr] at h
        cases h

lemma applyAll_id_eq (body : List (String × Value)) :
    ∀ (p : PersonRec), "id" ∉ body.map Prod.fst → (applyAll p body).id = p.id := by
  induction body with
  | nil => intro p _; rfl
  | cons kv rest ih =>
    intro p h
    simp only [List.map_cons, List.mem_cons, not_or] at h
    rw [applyAll_cons, ih (setattr p kv.1 kv.2) h.2]
    exact setattr_id_ne p kv.1 kv.2 (fun he => h.1 he.symm)

/-! ## Equation lemmas for the endpoint handlers -/

lemma applyFields_nil (p : PersonRec) : applyFields p [] = .done p := rfl

lemma update_person_none (pid : Int) (body : List (String × Value)) (s : Store)
    (h : get_person_by_id pid s.persons = none) :
    update_person pid body s = (.notFound "Not found", s) := by
  unfold update_person; rw [h]

lemma update_person_some (pid : Int) (body : List (String × Value)) (s : Store)
    (p : PersonRec) (h : get_person_by_id pid s.persons = some p) :
    update_person pid body s = updateFound s p body := by
  unfold update_person; rw [h]

lemma updateFound_attr (s : Store) (p : PersonRec) (body : List (String × Value))
    (h : applyFields p body = .attrError) :
    updateFound s p body = (.serverError "AttributeError", s) := by
  unfold updateFound; rw [h]

lemma updateFound_invalid (s : Store) (p : PersonRec) (body : List (String × Value))
    (h : applyFields p body = .invalid) :
    updateFound s p body = (.badRequest "Invalid data", s) := by
  unfold updateFound; rw [h]

lemma updateFound_done (s : Store) (p : PersonRec) (body : List (String × Value))
    (p' : PersonRec) (h : applyFields p body = .done p') :
    updateFound s p body =
      (if commitOk s p.id p' then
        (.ok p', ⟨s.persons.map (fun q => if q.id == p.id then p' else q), s.nextId⟩)
      else (.serverError "IntegrityError", s)) := by
  unfold updateFound; rw [h]

lemma read_person_none (pid : Int) (s : Store)
    (h : get_person_by_id pid s.persons = none) :
    read_person pid s = .notFound "Not found" := by
  unfold read_person; rw [h]

lemma read_person_some (pid : Int) (s : Store) (p : PersonRec)
    (h : get_person_by_id pid s.persons = some p) :
    read_person pid s = .ok p := by
  unfold read_person; rw [h]

lemma delete_person_none (pid : Int) (s : Store)
    (h : get_person_by_id pid s.persons = none) :
    delete_person pid s = (.notFound "Not found", s) := by
  unfold delete_person; rw [h]

lemma delete_person_some (pid : Int) (s : Store) (p : PersonRec)
    (h : get_person_by_id pid s.persons = some p) :
    delete_person pid s
      = (.noContent, ⟨s.persons.filter (fun q => !(q.id == p.id)), s.nextId⟩) := by
  unfold delete_person; rw [h]

lemma setattr_fieldsTruthy (p : PersonRec) (f : String) (v : Value)
    (hv : v.truthy = true) (hp : fieldsTruthy p = true) :
    fieldsTruthy (setattr p f v) = true := by
  unfold setattr
  split_ifs <;> simp_all [fieldsTruthy]

lemma applyAll_fieldsTruthy (body : List (String × Value)) :
    ∀ p, (∀ kv ∈ body, Value.truthy kv.2 = true) → fieldsTruthy p = true →
    fieldsTruthy (applyAll p body) = true := by
  induction body with
  | nil => intro p _ hp; exact hp
  | cons kv rest ih =>
    intro p hb hp
    obtain ⟨f, v⟩ := kv
    rw [applyAll_cons]
    exact ih (setattr p f v) (fun kv hkv => hb kv (List.mem_cons_of_mem _ hkv))
      (setattr_fieldsTruthy p f v (hb (f, v) (List.mem_cons_self _ _)) hp)

/-! ## Claim C1 -/

/-- Claim C1, counterexample to the claim as stated: on the test-data record
every field named by the body `[("name", null)]` has a truthy current stored
value, so the claim predicts 200 with the fully updated record; the code
instead hits the NOT NULL constraint at commit and surfaces an unhandled
IntegrityError (a generic 500), not 200. -/
theorem C1_counterexample :
    hasFalsyField johnRec [("name", Value.vnull)] = false
    ∧ get_person_by_id 1 sampleStore.persons = some johnRec
    ∧ (update_person 1 [("name", Value.vnull)] sampleStore).1
        = .serverError "IntegrityError"
    ∧ (update_person 1 [("name", Value.vnull)] sampleStore).1
        ≠ .ok (applyAll johnRec [("name", Value.vnull)]) := by
  decide

/-- Claim C1 (amended): for every stored person and every PATCH body mapping
the person's columns to values without repetition, the endpoint returns
400 with body message "Invalid data" if and only if at least one field named
in the body has a falsy current stored value on the existing record; if no
named field is falsy and the commit succeeds — every updated column holds a
value of its declared type (strings for name, address, work; an integer for
age; an integer id no other row uses) — it returns 200 with the fully
updated record.  A failing commit or response serialization (a null value, a
wrongly typed value) instead surfaces as an unhandled error (500). -/
theorem C1_patch_status_amended (s : Store) (pid : Int) (p : PersonRec)
    (body : List (String × Value))
    (hfind : get_person_by_id pid s.persons = some p)
    (hvalid : ∀ kv ∈ body, kv.1 ∈ validFields)
    (hnd : (body.map Prod.fst).Nodup) :
    ((update_person pid body s).1 = .badRequest "Invalid data"
        ↔ hasFalsyField p body = true)
    ∧ (hasFalsyField p body = false →
        commitOk s p.id (applyAll p body) = true →
        (update_person pid body s).1 = .ok (applyAll p body)) := by
  rw [update_person_some pid body s p hfind]
  by_cases hfal : hasFalsyField p body = true
  · rw [updateFound_invalid s p body (applyFields_invalid_of_hasFalsy body p hvalid hfal)]
    constructor
    · simp [hfal]
    · intro hfal2
      rw [hfal2] at hfal
      cases hfal
  · rw [Bool.not_eq_true] at hfal
    rw [updateFound_done s p body (applyAll p body)
      (applyFields_done_of_pass p body hvalid hnd hfal)]
    constructor
    · by_cases hc : commitOk s p.id (applyAll p body) = true
      · rw [if_pos hc]; simp [hfal]
      · rw [if_neg hc]; simp [hfal]
    · intro _ hc
      rw [if_pos hc]

/-- Claim C1, witness: the amended theorem applied to the test-data store with
the body `[("age", 25)]`. -/
theorem C1_patch_status_amended_witness :
    ((update_person 1 [("age", Value.vint 25)] sampleStore).1
        = .badRequest "Invalid data"
      ↔ hasFalsyField johnRec [("age", Value.vint 25)] = true)
    ∧ (hasFalsyField johnRec [("age", Value.vint 25)] = false →
        commitOk sampleStore johnRec.id (applyAll johnRec [("age", Value.vint 25)]) = true →
        (update_person 1 [("age", Value.vint 25)] sampleStore).1
          = .ok (applyAll johnRec [("age", Value.vint 25)])) :=
  C1_patch_status_amended sampleStore 1 johnRec [("age", Value.vint 25)]
    (by decide) (by decide) (by decide)

/-! ## Claim C2 -/

/-- Claim C2: for every stored person and every PATCH body over the person's
attributes containing at least one field whose current stored value is falsy,
the request returns 400 and the stored state is byte-for-byte unchanged — the
response is error_response("Invalid data", 400) and the returned store is
exactly the store before the request, because the loop aborts before any
commit. -/
theorem C2_no_partial_commit (s : Store) (pid : Int) (p : PersonRec)
    (body : List (String × Value))
    (hfind : get_person_by_id pid s.persons = some p)
    (hvalid : ∀ kv ∈ body, kv.1 ∈ validFields)
    (hfal : hasFalsyField p body = true) :
    update_person pid body s = (.badRequest "Invalid data", s) := by
  rw [update_person_some pid body s p hfind]
  exact updateFound_invalid s p body (applyFields_invalid_of_hasFalsy body p hvalid hfal)

/-- Claim C2, witness: on a store whose record has an empty name, a PATCH that
first mutates age in memory and then reaches the falsy name returns 400 and
leaves the store untouched. -/
theorem C2_no_partial_commit_witness :
    update_person 1 [("age", Value.vint 25), ("name", Value.vstr "x")] emptyNameStore
      = (.badRequest "Invalid data", emptyNameStore) :=
  C2_no_partial_commit emptyNameStore 1 emptyNameRec
    [("age", Value.vint 25), ("name", Value.vstr "x")]
    (by decide) (by decide) (by decide)

/-! ## Claim C3 -/

/-- Claim C3, counterexample to the claim as stated: a PATCH whose body names
the `id` key changes the stored id — the update loop treats `id` like any
other attribute, the current id 1 is truthy, so `setattr` writes the new id
and the commit persists it.  The store's record afterwards has id 2, and the
request even reports success. -/
theorem C3_counterexample :
    (update_person 1 [("id", Value.vint 2)] sampleStore).2.persons.map PersonRec.id
      = [Value.vint 2]
    ∧ sampleStore.persons.map PersonRec.id = [Value.vint 1]
    ∧ (update_person 1 [("id", Value.vint 2)] sampleStore).1
        = .ok ⟨Value.vint 2, Value.vstr "John Doe", Value.vint 30,
               Value.vstr "123", Value.vstr "123"⟩ := by
  decide

/-- Claim C3 (amended): the store-assigned id is immutable under every
operation except a PATCH whose body explicitly names the `id` key: a PATCH
whose body does not name `id` leaves every stored id unchanged, a create only
appends after the existing rows, and a delete only removes rows. -/
theorem C3_id_immutable_amended (s : Store) (pid : Int)
    (body : List (String × Value)) (b : CreateBody)
    (h : "id" ∉ body.map Prod.fst) :
    (update_person pid body s).2.persons.map PersonRec.id
        = s.persons.map PersonRec.id
    ∧ (∃ tail, (create_person b s).2.persons = s.persons ++ tail)
    ∧ (∀ q ∈ (delete_person pid s).2.persons, q ∈ s.persons) := by
  refine ⟨?_, ⟨[mkRecord s.nextId b], rfl⟩, ?_⟩
  · cases hfind : get_person_by_id pid s.persons with
    | none => rw [update_person_none pid body s hfind]
    | some p =>
      rw [update_person_some pid body s p hfind]
      cases haf : applyFields p body with
      | attrError => rw [updateFound_attr s p body haf]
      | invalid => rw [updateFound_invalid s p body haf]
      | done p' =>
        rw [updateFound_done s p body p' haf]
        by_cases hc : commitOk s p.id p' = true
        · rw [if_pos hc]
          have hid : p'.id = p.id := by
            rw [applyFields_done_eq body p p' haf]
            exact applyAll_id_eq body p h
          rw [List.map_map]
          apply List.map_congr_left
          intro q hq
          simp only [Function.comp_apply]
          by_cases hqe : (q.id == p.id) = true
          · rw [if_pos hqe, hid]
            exact (beq_iff_eq.mp hqe).symm
          · rw [if_neg hqe]
        · rw [if_neg hc]
  · intro q hq
    cases hfind : get_person_by_id pid s.persons with
    | none =>
      rw [delete_person_none pid s hfind] at hq
      exact hq
    | some p =>
      rw [delete_person_some pid s p hfind] at hq
      exact (List.mem_filter.mp hq).1

/-- Claim C3, witness: the amended theorem applied to the test-data store, a
PATCH renaming the person, and a fresh create payload. -/
theorem C3_id_immutable_amended_witness :
    (update_person 1 [("name", Value.vstr "Jane Smith")] sampleStore).2.persons.map
        PersonRec.id
      = sampleStore.persons.map PersonRec.id
    ∧ (∃ tail, (create_person ⟨"Jane Smith", 25, "456", "456"⟩ sampleStore).2.persons
        = sampleStore.persons ++ tail)
    ∧ (∀ q ∈ (delete_person 1 sampleStore).2.persons, q ∈ sampleStore.persons) :=
  C3_id_immutable_amended sampleStore 1 [("name", Value.vstr "Jane Smith")]
    ⟨"Jane Smith", 25, "456", "456"⟩ (by decide)

/-! ## Claim C4 -/

/-- Claim C4, counterexample to the claim as stated: a single POST whose
payload is correctly typed but falsy-valued (age 0) is accepted with 201 and
stores a record whose age is 0; likewise a PATCH may set a truthy field to an
empty string and commit it.  The claimed all-fields-truthy invariant fails. -/
theorem C4_counterexample :
    (post_persons [("name", Value.vstr "x"), ("age", Value.vint 0),
        ("address", Value.vstr "a"), ("work", Value.vstr "w")] emptyStore).1
      = .created "/persons/1"
    ∧ (post_persons [("name", Value.vstr "x"), ("age", Value.vint 0),
        ("address", Value.vstr "a"), ("work", Value.vstr "w")]
        emptyStore).2.persons.map PersonRec.age = [Value.vint 0]
    ∧ Value.truthy (Value.vint 0) = false
    ∧ (update_person 1 [("name", Value.vstr "")] sampleStore).2.persons.map
        PersonRec.name = [Value.vstr ""]
    ∧ Value.truthy (Value.vstr "") = false := by
  decide

/-- Claim C4 (amended): the truthiness invariant is only preserved when the
inputs themselves are truthy — POST only type-checks its payload and PATCH
validates the current value, not the incoming one, so falsy values can be
stored; but starting from a store whose records are all-truthy, a POST with a
truthy-valued payload, a PATCH supplying only truthy values, and any DELETE
each keep every stored record all-truthy. -/
theorem C4_truthy_invariant_amended (s : Store) (b : CreateBody) (pid : Int)
    (body : List (String × Value))
    (hs : allTruthy s = true)
    (hn : b.name ≠ "") (ha : b.age ≠ 0) (hd : b.address ≠ "") (hw : b.work ≠ "")
    (hb : ∀ kv ∈ body, Value.truthy kv.2 = true) :
    allTruthy (create_person b s).2 = true
    ∧ allTruthy (update_person pid body s).2 = true
    ∧ allTruthy (delete_person pid s).2 = true := by
  refine ⟨?_, ?_, ?_⟩
  · simp only [create_person, allTruthy, List.all_append] at *
    rw [hs]
    simp [fieldsTruthy, Value.truthy, hn, ha, hd, hw]
  · cases hfind : get_person_by_id pid s.persons with
    | none =>
      rw [update_person_none pid body s hfind]
      exact hs
    | some p =>
      rw [update_person_some pid body s p hfind]
      cases haf : applyFields p body with
      | attrError =>
        rw [updateFound_attr s p body haf]
        exact hs
      | invalid =>
        rw [updateFound_invalid s p body haf]
        exact hs
      | done p' =>
        rw [updateFound_done s p body p' haf]
        by_cases hc : commitOk s p.id p' = true
        · rw [if_pos hc]
          have hp : fieldsTruthy p = true := by
            have hmem : p ∈ s.persons := List.mem_of_find?_eq_some hfind
            exact List.all_eq_true.mp hs p hmem
          have hp' : fieldsTruthy p' = true := by
            rw [applyFields_done_eq body p p' haf]
            exact applyAll_fieldsTruthy body p hb hp
          refine List.all_eq_true.mpr ?_
          intro q hq
          rw [List.mem_map] at hq
          obtain ⟨r, hr, rfl⟩ := hq
          by_cases hre : (r.id == p.id) = true
          · rw [if_pos hre]
            exact hp'
          · rw [if_neg hre]
            exact List.all_eq_true.mp hs r hr
        · rw [if_neg hc]
          exact hs
  · cases hfind : get_person_by_id pid s.persons with
    | none =>
      rw [delete_person_none pid s hfind]
      exact hs
    | some p =>
      rw [delete_person_some pid s p hfind]
      refine List.all_eq_true.mpr ?_
      intro q hq
      exact List.all_eq_true.mp hs q (List.mem_filter.mp hq).1

/-- Claim C4, witness: the amended preservation theorem applied to the
test-data store with truthy inputs. -/
theorem C4_truthy_invariant_amended_witness :
    allTruthy (create_person ⟨"Jane Smith", 25, "456", "456"⟩ sampleStore).2 = true
    ∧ allTruthy (update_person 1 [("age", Value.vint 25)] sampleStore).2 = true
    ∧ allTruthy (delete_person 1 sampleStore).2 = true :=
  C4_truthy_invariant_amended sampleStore ⟨"Jane Smith", 25, "456", "456"⟩ 1
    [("age", Value.vint 25)] (by decide) (by decide) (by decide) (by decide)
    (by decide) (by decide)

/-! ## Claim C5 -/

/-- Claim C5: for every id not present in the store (never created or already
deleted), GET, PATCH and DELETE each return 404 with detail "Not found" and
leave the store unchanged; and after a successful DELETE of an id, a GET of
that id returns 404 and a second DELETE returns 404 (not 204). -/
theorem C5_not_found (s : Store) (pid : Int) (body : List (String × Value))
    (s' : Store) :
    (s.persons.all (fun q => !(q.id == Value.vint pid)) = true →
      read_person pid s = .notFound "Not found"
      ∧ update_person pid body s = (.notFound "Not found", s)
      ∧ delete_person pid s = (.notFound "Not found", s))
    ∧ (delete_person pid s = (.noContent, s') →
      read_person pid s' = .notFound "Not found"
      ∧ (delete_person pid s').1 = .notFound "Not found") := by
  constructor
  · intro habsent
    have hfind : get_person_by_id pid s.persons = none := by
      refine List.find?_eq_none.mpr ?_
      intro x hx hpx
      have hall := List.all_eq_true.mp habsent x hx
      rw [hpx] at hall
      cases hall
    exact ⟨read_person_none pid s hfind, update_person_none pid body s hfind,
      delete_person_none pid s hfind⟩
  · intro hdel
    cases hfind : get_person_by_id pid s.persons with
    | none =>
      rw [delete_person_none pid s hfind] at hdel
      have h1 : Resp.notFound "Not found" = Resp.noContent := congrArg Prod.fst hdel
      exact Resp.noConfusion h1
    | some p =>
      rw [delete_person_some pid s p hfind] at hdel
      have hfind2 : s.persons.find? (fun q => q.id == Value.vint pid) = some p := hfind
      have hpred := List.find?_some hfind2
      have hpe : p.id = Value.vint pid := beq_iff_eq.mp hpred
      have hs' : s' = ⟨s.persons.filter (fun q => !(q.id == p.id)), s.nextId⟩ :=
        (congrArg Prod.snd hdel).symm
      have hfind' : get_person_by_id pid s'.persons = none := by
        rw [hs']
        refine List.find?_eq_none.mpr ?_
        intro x hx hpx
        have hxmem := List.mem_filter.mp hx
        have hxe : x.id = Value.vint pid := beq_iff_eq.mp hpx
        have hxne := hxmem.2
        rw [hxe, ← hpe] at hxne
        simp at hxne
      exact ⟨read_person_none pid s' hfind',
        by rw [delete_person_none pid s' hfind']⟩

/-- Claim C5, witness: id 99 is absent from the test-data store, so GET,
PATCH and DELETE on it give 404; and after DELETE of id 1 succeeds, GET and
DELETE of id 1 give 404. -/
theorem C5_not_found_witness :
    (read_person 99 sampleStore = .notFound "Not found"
      ∧ update_person 99 [] sampleStore = (.notFound "Not found", sampleStore)
      ∧ delete_person 99 sampleStore = (.notFound "Not found", sampleStore))
    ∧ (read_person 1 (⟨[], 2⟩ : Store) = .notFound "Not found"
      ∧ (delete_person 1 (⟨[], 2⟩ : Store)).1 = .notFound "Not found") :=
  ⟨(C5_not_found sampleStore 99 [] sampleStore).1 (by decide),
   (C5_not_found sampleStore 1 [] ⟨[], 2⟩).2 (by decide)⟩

/-! ## Claim C6 -/

/-- Claim C6: for every valid Create payload posted to a store in which the
next id is not yet used, POST returns 201 with an empty body and Location
header `/persons/` followed by the new id, and a GET of that id on the
resulting store returns 200 with a record whose name, age, address and work
equal the submitted payload and whose id is the id the Location names. -/
theorem C6_create_get_roundtrip (s : Store) (b : CreateBody)
    (hfresh : s.persons.all (fun q => !(q.id == Value.vint s.nextId)) = true) :
    (create_person b s).1 = .created ("/persons/" ++ toString s.nextId)
    ∧ read_person s.nextId (create_person b s).2 = .ok (mkRecord s.nextId b) := by
  constructor
  · rfl
  · have hnone : s.persons.find? (fun p => p.id == Value.vint s.nextId) = none := by
      refine List.find?_eq_none.mpr ?_
      intro x hx hpx
      have hall := List.all_eq_true.mp hfresh x hx
      rw [hpx] at hall
      cases hall
    have hfind : get_person_by_id s.nextId (create_person b s).2.persons
        = some (mkRecord s.nextId b) := by
      show (s.persons ++ [mkRecord s.nextId b]).find?
          (fun p => p.id == Value.vint s.nextId) = some (mkRecord s.nextId b)
      rw [List.find?_append, hnone, Option.none_or]
      exact List.find?_cons_of_pos _ (by simp [mkRecord])
    exact read_person_some s.nextId (create_person b s).2 (mkRecord s.nextId b) hfind

/-- Claim C6, witness: posting the repository's own test payload to a fresh
store and following the Location header. -/
theorem C6_create_get_roundtrip_witness :
    (create_person ⟨"John Doe", 30, "123", "123"⟩ emptyStore).1
      = .created ("/persons/" ++ toString emptyStore.nextId)
    ∧ read_person emptyStore.nextId
        (create_person ⟨"John Doe", 30, "123", "123"⟩ emptyStore).2
      = .ok (mkRecord emptyStore.nextId ⟨"John Doe", 30, "123", "123"⟩) :=
  C6_create_get_roundtrip emptyStore ⟨"John Doe", 30, "123", "123"⟩ (by decide)

/-! ## Claim C7 -/

lemma fieldErrorsStr_ne_nil (body : List (String × Value)) (f : String)
    (h : notStrTyped (lookupField body f) = true) : fieldErrorsStr body f ≠ [] := by
  cases hl : lookupField body f with
  | none => simp [fieldErrorsStr, hl]
  | some v =>
    cases v with
    | vnull => simp [fieldErrorsStr, hl]
    | vstr s2 =>
      rw [hl] at h
      simp [notStrTyped] at h
    | vint n => simp [fieldErrorsStr, hl]
    | vobj => simp [fieldErrorsStr, hl]

lemma fieldErrorsInt_ne_nil (body : List (String × Value)) (f : String)
    (h : notIntTyped (lookupField body f) = true) : fieldErrorsInt body f ≠ [] := by
  cases hl : lookupField body f with
  | none => simp [fieldErrorsInt, hl]
  | some v =>
    cases v with
    | vnull => simp [fieldErrorsInt, hl]
    | vstr s2 => simp [fieldErrorsInt, hl]
    | vint n =>
      rw [hl] at h
      simp [notIntTyped] at h
    | vobj => simp [fieldErrorsInt, hl]

/-- Claim C7: for every POST body in which any of the four fields name, age,
address, work is missing or wrongly typed (text fields not string-typed, age
not integer-typed), the service returns 422 with a non-empty structured list
of (field path, error kind) diagnostics, and the store is untouched — the
rejection happens in the parsing layer before the handler runs. -/
theorem C7_create_validation (body : List (String × Value)) (s : Store)
    (h : (notStrTyped (lookupField body "name")
        || notIntTyped (lookupField body "age")
        || notStrTyped (lookupField body "address")
        || notStrTyped (lookupField body "work")) = true) :
    post_persons body s = (.unprocessable (createErrors body), s)
    ∧ createErrors body ≠ [] := by
  have hnone : validate_create body = none := by
    unfold validate_create
    split
    · next n a ad w hn2 ha2 had2 hw2 =>
      exfalso
      rw [hn2, ha2, had2, hw2] at h
      simp [notStrTyped, notIntTyped] at h
    · rfl
  constructor
  · unfold post_persons
    rw [hnone]
  · intro hempty
    unfold createErrors at hempty
    rw [List.append_eq_nil, List.append_eq_nil, List.append_eq_nil] at hempty
    obtain ⟨⟨⟨e1, e2⟩, e3⟩, e4⟩ := hempty
    rcases Bool.or_eq_true_iff.mp h with h123 | h4
    · rcases Bool.or_eq_true_iff.mp h123 with h12 | h3
      · rcases Bool.or_eq_true_iff.mp h12 with h1 | h2
        · exact fieldErrorsStr_ne_nil body "name" h1 e1
        · exact fieldErrorsInt_ne_nil body "age" h2 e2
      · exact fieldErrorsStr_ne_nil body "address" h3 e3
    · exact fieldErrorsStr_ne_nil body "work" h4 e4

/-- Claim C7, witness: a body missing age, address and work is rejected with
422, non-empty diagnostics, and no store change. -/
theorem C7_create_validation_witness :
    post_persons [("name", Value.vstr "x")] sampleStore
      = (.unprocessable (createErrors [("name", Value.vstr "x")]), sampleStore)
    ∧ createErrors [("name", Value.vstr "x")] ≠ [] :=
  C7_create_validation [("name", Value.vstr "x")] sampleStore (by decide)

/-! ## Claim C8 -/

lemma createMany_eq (bodies : List CreateBody) :
    ∀ s : Store, createMany bodies s
      = ⟨s.persons ++ mkRecords s.nextId bodies,
         s.nextId + (bodies.length : Int)⟩ := by
  induction bodies with
  | nil =>
    intro s
    cases s
    simp [createMany, mkRecords]
  | cons b bs ih =>
    intro s
    have step : createMany (b :: bs) s = createMany bs (create_person b s).2 := rfl
    have hcp : (create_person b s).2
        = ⟨s.persons ++ [mkRecord s.nextId b], s.nextId + 1⟩ := rfl
    rw [step, hcp, ih]
    rw [mkRecords]
    congr 1
    · rw [List.append_assoc, List.singleton_append]
    · simp only [List.length_cons]
      push_cast
      ring

lemma mkRecords_length (bodies : List CreateBody) :
    ∀ n : Int, (mkRecords n bodies).length = bodies.length := by
  induction bodies with
  | nil => intro n; rfl
  | cons b bs ih =>
    intro n
    rw [mkRecords, List.length_cons, List.length_cons, ih (n + 1)]

lemma mkRecords_ids (bodies : List CreateBody) :
    ∀ n : Int, (mkRecords n bodies).map PersonRec.id
      = (List.range bodies.length).map (fun i : Nat => Value.vint (n + (i : Int))) := by
  induction bodies with
  | nil => intro n; rfl
  | cons b bs ih =>
    intro n
    rw [mkRecords, List.map_cons, ih (n + 1), List.length_cons,
      List.range_succ_eq_map, List.map_cons, List.map_map]
    congr 1
    · simp [mkRecord]
    · apply List.map_congr_left
      intro i hi
      simp only [Function.comp_apply, Nat.succ_eq_add_one]
      congr 1
      push_cast
      ring

/-- Claim C8: after N successful creates on a fresh store with no deletes,
the list endpoint returns 200 with exactly N records, in creation order, the
i-th record carrying the i-th submitted payload and the ascending
auto-incremented id 1 + i. -/
theorem C8_list_in_creation_order (bodies : List CreateBody) :
    read_persons (createMany bodies emptyStore) = .okList (mkRecords 1 bodies)
    ∧ (mkRecords 1 bodies).length = bodies.length
    ∧ (mkRecords 1 bodies).map PersonRec.id
        = (List.range bodies.length).map (fun i : Nat => Value.vint (1 + (i : Int))) := by
  refine ⟨?_, mkRecords_length bodies 1, mkRecords_ids bodies 1⟩
  rw [createMany_eq bodies emptyStore]
  unfold read_persons
  simp [emptyStore]

/-! ## Claim C9 -/

/-- Claim C9: a PATCH of an existing person with an empty JSON object body
succeeds with 200 and returns the record unchanged, and the store is
unchanged — the falsy-field check never fires and no field is modified.  The
hypotheses say the stored row satisfies the table constraints (integer
primary key, non-null columns, unique id). -/
theorem C9_empty_patch (s : Store) (pid : Int) (p : PersonRec)
    (hfind : get_person_by_id pid s.persons = some p)
    (hok : commitOk s p.id p = true)
    (huniq : ∀ q ∈ s.persons, q.id = p.id → q = p) :
    update_person pid [] s = (.ok p, s) := by
  rw [update_person_some pid [] s p hfind,
    updateFound_done s p [] p (applyFields_nil p), if_pos hok]
  have hmap : s.persons.map (fun q => if q.id == p.id then p else q) = s.persons := by
    have hpt : ∀ q ∈ s.persons, (fun q => if q.id == p.id then p else q) q = id q := by
      intro q hq
      by_cases hqe : (q.id == p.id) = true
      · simp only [id, if_pos hqe]
        exact (huniq q hq (beq_iff_eq.mp hqe)).symm
      · simp only [id, if_neg hqe]
    rw [List.map_congr_left hpt, List.map_id]
  rw [hmap]

/-- Claim C9, witness: an empty PATCH body on the test-data store. -/
theorem C9_empty_patch_witness :
    update_person 1 [] sampleStore = (.ok johnRec, sampleStore) :=
  C9_empty_patch sampleStore 1 johnRec (by decide) (by decide) (by decide)

/-! ## Claim C10 -/

/-- Claim C10, counterexample to the claim as stated, in both directions the
code refutes it.  First: on a record whose name is currently the empty
string, a PATCH body naming the falsy field before the unknown key returns
400 ("Invalid data"), not the claimed unhandled AttributeError — the loop
aborts at the falsy field before ever reaching the unknown key.  Second: a
key that is none of id, name, age, address, work can still be an attribute
of the PersonDB instance — PATCH body mapping "metadata" to 1 passes the
truthiness check on the declarative base's truthy MetaData object, sets a
harmless shadowing instance attribute, and returns 200 with the unchanged
record, not 500. -/
theorem C10_counterexample :
    (("foo" ∉ validFields)
      ∧ update_person 1 [("name", Value.vstr "x"), ("foo", Value.vint 1)]
          emptyNameStore = (.badRequest "Invalid data", emptyNameStore)
      ∧ (update_person 1 [("name", Value.vstr "x"), ("foo", Value.vint 1)]
          emptyNameStore).1 ≠ .serverError "AttributeError")
    ∧ (("metadata" ∉ validFields)
      ∧ update_person 1 [("metadata", Value.vint 1)] sampleStore
          = (.ok johnRec, sampleStore)) := by
  decide

/-- Claim C10 (amended): for every existing person, a PATCH body that reaches
a key that is not an attribute of the PersonDB instance — the key is not a
mapped column, not one of the base's plain attributes metadata and registry,
and not underscore-prefixed (all remaining instance attributes, Python and
SQLAlchemy internals, start with an underscore); and every entry before it
names a distinct column whose current value is truthy — raises an unhandled
AttributeError (a generic 500 at the transport), with no store change; in
particular this holds whenever such an unknown key comes first.  Bodies
naming attribute keys such as metadata instead pass the truthiness check
harmlessly (see the counterexample), and a falsy field listed earlier
returns 400 before the unknown key is reached. -/
theorem C10_unknown_key_amended (s : Store) (pid : Int) (p : PersonRec)
    (pre post : List (String × Value)) (f : String) (v : Value)
    (hfind : get_person_by_id pid s.persons = some p)
    (hf1 : f ∉ plainAttrs)
    (hf2 : startsUnderscore f = false)
    (hpre : ∀ kv ∈ pre, kv.1 ∈ validFields)
    (hnd : (pre.map Prod.fst).Nodup)
    (hfal : hasFalsyField p pre = false) :
    update_person pid (pre ++ (f, v) :: post) s
      = (.serverError "AttributeError", s) := by
  rw [update_person_some pid (pre ++ (f, v) :: post) s p hfind]
  refine updateFound_attr s p _ ?_
  rw [applyFields_append pre p ((f, v) :: post) hpre hnd hfal]
  exact applyFields_cons_none (applyAll p pre) f v post
    (getattr_eq_none (applyAll p pre) f hf1 hf2)

/-- Claim C10, witness: a PATCH whose body mutates age and then names the
key "foo" — no attribute of the instance — on the test-data store. -/
theorem C10_unknown_key_amended_witness :
    update_person 1 ([("age", Value.vint 25)] ++ ("foo", Value.vint 1) :: [])
      sampleStore = (.serverError "AttributeError", sampleStore) :=
  C10_unknown_key_amended sampleStore 1 johnRec [("age", Value.vint 25)] []
    "foo" (Value.vint 1) (by decide) (by decide) (by decide) (by decide)
    (by decide) (by decide)
